import Mathlib

/-!
Shallow embedding of the sketchthis-studio generation pipeline.

The Go sources embedded here:
* `tools/llm` (`part_006`/`part_007`): `Message`, `Response`, `Response.WasTruncated`.
* `tools/llm/anthropic.go` (`part_005`): `AnthropicClient.CompleteWithRetry` retry/backoff loop.
* the single-shot artist (`part_000`): `createSketch`, `completeWithContinuation`,
  `parseResponse`, `extractCode`, `extractTag`, `extractCommentTag`, `appendRetry`.
* the minimal CLI generator (`artist.go` at the repo root): its own `parseResponse`.
* `entities/artist/artist.go`: `SketchPlan`, `SectionPlan`, `ExpandSection` and its prompts,
  `extractTag` (case-sensitive variant), `extractSketchCode`.
* the decomposed `Studio.Generate` (`part_001`, second file): the section-expansion pass
  and the phase sequencing.
* `tools/compiler` (`part_004`): `CompileWithOptions` result classification.

External effects (the HTTP gateway, the compiler process, the filesystem) are modelled as
oracles passed in explicitly: the gateway is a function from the call index to a transport
result, the compiler process is a function from (code, output name) to a result, and file
existence is a pair of booleans.  Go regular expressions are translated into executable
character-list scanners with the same leftmost-match / lazy-capture behaviour on the
patterns the code uses.
-/

/-! ### Character-list helpers shared by the regex translations -/

/-- Character comparison, optionally case-insensitive (for Go's `(?i)` flag). -/
def charEqCI (ci : Bool) (a b : Char) : Bool :=
  if ci then a.toLower == b.toLower else a == b

/-- Does `pat` match at the head of `l` (up to case when `ci` is set)? -/
def isPrefixList (ci : Bool) : List Char → List Char → Bool
  | [], _ => true
  | _ :: _, [] => false
  | p :: ps, c :: cs => charEqCI ci p c && isPrefixList ci ps cs

/-- Suffix of `l` after the first occurrence of `pat`; `none` when `pat` does not occur.
Mirrors the way a leftmost regex match consumes a literal token. -/
def dropAfterFirst (ci : Bool) (pat : List Char) : List Char → Option (List Char)
  | [] => if pat.isEmpty then some [] else none
  | c :: cs =>
    if isPrefixList ci pat (c :: cs) then some ((c :: cs).drop pat.length)
    else dropAfterFirst ci pat cs

/-- Text of `l` strictly before the first occurrence of `pat`; `none` when `pat` does not
occur.  This is the lazy capture `(.*?)` in front of a literal token. -/
def takeBeforeFirst (ci : Bool) (pat : List Char) : List Char → Option (List Char)
  | [] => if pat.isEmpty then some [] else none
  | c :: cs =>
    if isPrefixList ci pat (c :: cs) then some []
    else (takeBeforeFirst ci pat cs).map (c :: ·)

/-- Does `pat` occur anywhere inside `l` (case-insensitively when `ci` is set)? -/
def containsList (ci : Bool) (pat : List Char) : List Char → Bool
  | [] => pat.isEmpty
  | c :: cs => isPrefixList ci pat (c :: cs) || containsList ci pat cs

/-- Model of `strings.Contains` on strings (case-sensitive). -/
def strContains (s pat : String) : Bool :=
  containsList false pat.data s.data

/-- Model of `strings.TrimSpace` on a character list. -/
def trimChars (cs : List Char) : List Char :=
  ((cs.dropWhile Char.isWhitespace).reverse.dropWhile Char.isWhitespace).reverse

/-- Model of `strings.TrimSpace`. -/
def strTrim (s : String) : String := ⟨trimChars s.data⟩

/-- Model of `strings.ToLower` (ASCII case folding, which is all the pipeline feeds it). -/
def toLowerStr (s : String) : String := ⟨s.data.map Char.toLower⟩

/-- Model of `strings.Join xs sep`. -/
def strJoin (sep : String) : List String → String
  | [] => ""
  | [x] => x
  | x :: y :: rest => x ++ sep ++ strJoin sep (y :: rest)

/-- Model of `strings.Split s "\n"`: split into lines, keeping empty pieces. -/
def splitLinesAux : List Char → List Char → List String
  | [], cur => [⟨cur.reverse⟩]
  | c :: cs, cur =>
    if c = '\n' then ⟨cur.reverse⟩ :: splitLinesAux cs [] else splitLinesAux cs (c :: cur)

/-- Model of `strings.Split s "\n"`. -/
def splitLines (s : String) : List String := splitLinesAux s.data []

/-- Fuel-driven `strings.ReplaceAll` (non-overlapping, left to right).  The fuel starts at
the length of the list, which always suffices for the non-empty patterns the sources use;
it only exists to make the recursion structural. -/
def replaceAllAux (pat repl : List Char) : Nat → List Char → List Char
  | _, [] => []
  | 0, l => l
  | fuel + 1, c :: cs =>
    if pat.isEmpty then c :: cs
    else if isPrefixList false pat (c :: cs) then
      repl ++ replaceAllAux pat repl fuel ((c :: cs).drop pat.length)
    else c :: replaceAllAux pat repl fuel cs

/-- Model of `strings.ReplaceAll s old new`. -/
def replaceAll (s old new : String) : String :=
  ⟨replaceAllAux old.data new.data s.data.length s.data⟩

/-! ### The llm package data model (`part_006`, `part_007`) -/

namespace Llm

/-- Model of `llm.Message`: one conversation message. -/
structure Message where
  role : String
  content : String
  deriving DecidableEq, Repr

/-- Model of `llm.Response`: one gateway response.  `Duration`, `Model` and the token counts do not
influence any control flow modelled here; the fields that do are kept. -/
structure Response where
  content : String
  stopReason : String
  deriving DecidableEq, Repr

/-- Model of `Response.WasTruncated`: true iff the response hit the token limit. -/
def Response.wasTruncated (r : Response) : Bool :=
  r.stopReason == "max_tokens"

end Llm

/-! ### Tag extraction (`part_000` and `entities/artist`) -/

/-- Shared body of the `(?s)<tag>(.*?)</tag>`-style extractors: the text between the first
`openTok` and the first `closeTok` after it. -/
def extractTagRaw (ci : Bool) (content openTok closeTok : List Char) : Option (List Char) :=
  match dropAfterFirst ci openTok content with
  | none => none
  | some rest => takeBeforeFirst ci closeTok rest

/-- Index of the last newline in a character list, if any. -/
def lastNewlinePos (l : List Char) : Option Nat :=
  (l.foldl (fun (st : Nat × Option Nat) c =>
    (st.1 + 1, if c = '\n' then some st.1 else st.2)) (0, none)).2

/-- One attempt of the fenced-code-block pattern
`(?s)```(?:sketchlang)?\s*\n(.*?)\n``` ` anchored at the head of `l`. -/
def tryFenceAt (l : List Char) : Option (List Char) :=
  if isPrefixList false "```".data l then
    let rest := l.drop 3
    let rest := if isPrefixList false "sketchlang".data rest then rest.drop 10 else rest
    let run := rest.takeWhile Char.isWhitespace
    match lastNewlinePos run with
    | none => none
    | some j => takeBeforeFirst false "\n```".data (rest.drop (j + 1))
  else none

/-- Leftmost match of the fenced-code-block pattern over the whole text. -/
def fencedBlock : List Char → Option (List Char)
  | [] => none
  | c :: cs =>
    match tryFenceAt (c :: cs) with
    | some cap => some cap
    | none => fencedBlock cs

namespace Artist

/-- Model of `extractTag` of `part_000` (and of the root `artist.go`): `(?si)<tag>(.*?)</tag>`,
trimmed, empty string when absent. -/
def extractTag (content tag : String) : String :=
  match extractTagRaw true content.data ("<" ++ tag ++ ">").data ("</" ++ tag ++ ">").data with
  | some cap => strTrim ⟨cap⟩
  | none => ""

/-- Model of `extractCode` of `part_000` / root `artist.go`: a case-sensitive `<code>` block first
(returned trimmed even if the trim leaves it empty), else the fenced-block fallback. -/
def extractCode (content : String) : String :=
  match extractTagRaw false content.data "<code>".data "</code>".data with
  | some cap => strTrim ⟨cap⟩
  | none =>
    match fencedBlock content.data with
    | some cap => strTrim ⟨cap⟩
    | none => ""

/-- Inline form of `extractCommentTag`: `(?i)#\s*<tag>(.+?)</tag>` — a `#`, optional
whitespace, the open tag, then a non-empty newline-free lazy capture up to the close tag.
Scans left to right; a candidate whose shortest close crosses a newline is rejected and the
scan continues, exactly as the regex engine abandons that start position. -/
def inlineCommentScan (openTok closeTok : List Char) : List Char → Option (List Char)
  | [] => none
  | c :: cs =>
    let next := inlineCommentScan openTok closeTok cs
    if c = '#' then
      let rest := cs.dropWhile Char.isWhitespace
      if isPrefixList true openTok rest then
        let after := rest.drop openTok.length
        match after with
        | [] => next
        | a :: as_ =>
          match takeBeforeFirst true closeTok as_ with
          | some cap =>
            if (a :: cap).contains '\n' then next else some (a :: cap)
          | none => next
      else next
    else next

/-- The line-level open pattern `(?i)#\s*<tag>`: the remainder of the line after the first
match, or `none` when the line does not match. -/
def lineOpenSplit (openTok : List Char) : List Char → Option (List Char)
  | [] => none
  | c :: cs =>
    if c = '#' then
      let rest := cs.dropWhile Char.isWhitespace
      if isPrefixList true openTok rest then some (rest.drop openTok.length)
      else lineOpenSplit openTok cs
    else lineOpenSplit openTok cs

/-- Model of `strings.TrimPrefix l "#"` after an outer trim, then trim — the per-line cleaning
inside `extractCommentTag`. -/
def cleanCommentLine (line : List Char) : List Char :=
  let t := trimChars line
  match t with
  | '#' :: rest => trimChars rest
  | _ => trimChars t

/-- The line-accumulating loop of `extractCommentTag`.  The close pattern `(?i)#?\s*</tag>`
matches any line containing the close tag, because the optional prefix may match empty. -/
def commentLinesLoop (openTok closeTok : List Char) : List String → Bool → List (List Char) → List (List Char)
  | [], _, acc => acc
  | line :: rest, inTag, acc =>
    if inTag then
      if containsList true closeTok line.data then acc
      else
        let cleaned := cleanCommentLine line.data
        if cleaned.isEmpty then commentLinesLoop openTok closeTok rest true acc
        else commentLinesLoop openTok closeTok rest true (acc ++ [cleaned])
    else
      match lineOpenSplit openTok line.data with
      | some after =>
        let t := trimChars after
        if t.isEmpty then commentLinesLoop openTok closeTok rest true acc
        else commentLinesLoop openTok closeTok rest true (acc ++ [t])
      | none => commentLinesLoop openTok closeTok rest false acc

/-- Model of `extractCommentTag` of `part_000`: the inline single-line form first, then the
line-based scan between `# <tag>` and a line containing `</tag>`. -/
def extractCommentTag (content tag : String) : String :=
  let openTok := ("<" ++ tag ++ ">").data
  let closeTok := ("</" ++ tag ++ ">").data
  match inlineCommentScan openTok closeTok content.data with
  | some cap => strTrim ⟨cap⟩
  | none =>
    let pieces := commentLinesLoop openTok closeTok (splitLines content) false []
    strTrim ⟨(strJoin "\n" (pieces.map fun p => (⟨p⟩ : String))).data⟩

/-- Model of `firstNonEmpty`. -/
def firstNonEmpty : List String → String
  | [] => ""
  | v :: rest => if v ≠ "" then v else firstNonEmpty rest

end Artist

/-! ### The single-shot artist (`part_000`) -/

namespace Artist

/-- Model of `SketchResult` (`types.go`): the parsed response from the artist. -/
structure SketchResult where
  title : String
  summary : String
  metadata : List (String × String)
  code : String
  deriving DecidableEq, Repr

/-- The title resolution of `parseResponse` (`part_000`): the `<title>` tag of the whole
response, falling back to a comment tag inside the code block. -/
def parsedTitle (content code : String) : String :=
  let title0 := extractTag content "title"
  if title0 = "" then extractCommentTag code "title" else title0

/-- Model of `parseResponse` of `part_000`: code block and title are mandatory (the title may come
from a comment tag inside the code); summary and metadata are optional. -/
def parseResponse (content : String) : Except String SketchResult :=
  let code := extractCode content
  if code = "" then .error "no <code> block found"
  else
    let title := parsedTitle content code
    if title = "" then .error "no <title> found"
    else
      let summary := firstNonEmpty [extractTag content "summary", extractCommentTag code "summary"]
      let metadata :=
        match extractTag content "metadata" with
        | "" => ([] : List (String × String))
        | meta => [("subject", extractTag meta "subject"),
                   ("perspective", extractTag meta "perspective"),
                   ("style", extractTag meta "style")]
      .ok { title := title, summary := summary, metadata := metadata, code := code }

/-- Model of `maxRetries` of `part_000`. -/
def maxRetries : Nat := 2

/-- Model of `maxContinuations` of `part_000`. -/
def maxContinuations : Nat := 3

/-- Model of `appendRetry`: append the assistant's output and a corrective user message. -/
def appendRetry (messages : List Llm.Message) (assistantContent userFeedback : String) :
    List Llm.Message :=
  messages ++ [⟨"assistant", assistantContent⟩, ⟨"user", userFeedback⟩]

/-- The corrective user message built on a structural-parse failure (`createSketch`). -/
def parseRetryMsg (e : String) : String :=
  "Parse error: " ++ e ++
    "\n\nPlease fix and include <title>, <summary>, <metadata>, and <code> tags."

/-- The corrective user message built on a validation failure (`createSketch`). -/
def compileRetryMsg (errs : List String) : String :=
  "Compilation errors:\n" ++ strJoin "\n" errs ++ "\n\nPlease fix and provide corrected code."

deriving instance DecidableEq for Except

/-- Result of one `completeWithContinuation` call: the assembled content and last response
(or a transport error), the next gateway call index, and the number of continuation
requests that were issued. -/
structure CwcResult where
  result : Except String (String × Llm.Response)
  nextCall : Nat
  contRequests : Nat
  deriving DecidableEq, Repr

/-- The continuation loop of `completeWithContinuation` (`part_000`, lines 113-136):
while the budget is not exhausted, ask the gateway to continue, append the new content, and
stop as soon as a response is not truncated.  `gw` is the gateway oracle indexed by the
call number. -/
def contLoop (gw : Nat → Except String Llm.Response) :
    Nat → Nat → String → Llm.Response → Nat → CwcResult
  | 0, k, content, resp, issued => ⟨.ok (content, resp), k, issued⟩
  | budget + 1, k, content, _resp, issued =>
    match gw k with
    | .error e => ⟨.error ("continuation request failed: " ++ e), k + 1, issued + 1⟩
    | .ok contResp =>
      let content := content ++ contResp.content
      if contResp.wasTruncated then contLoop gw budget (k + 1) content contResp (issued + 1)
      else ⟨.ok (content, contResp), k + 1, issued + 1⟩

/-- Model of `completeWithContinuation` with continuation budget `C` (the source fixes
`C = maxContinuations = 3`), starting at gateway call index `k`. -/
def completeWithContinuation (gw : Nat → Except String Llm.Response) (C k : Nat) : CwcResult :=
  match gw k with
  | .error e => ⟨.error ("LLM request failed: " ++ e), k + 1, 0⟩
  | .ok resp =>
    if resp.wasTruncated then contLoop gw C (k + 1) resp.content resp 0
    else ⟨.ok (resp.content, resp), k + 1, 0⟩

/-- Terminal outcome of one `createSketch` invocation. -/
inductive SketchOutcome where
  | gwError (e : String)
  | parseExhausted (e : String)
  | validateExhausted (errs : List String)
  | success (result : SketchResult) (resp : Llm.Response)
  deriving DecidableEq, Repr

/-- What one `createSketch` run did: its outcome, the number of top-level attempt-loop
iterations it performed, the conversation as of the end of the run, and the next gateway
call index. -/
structure RunResult where
  outcome : SketchOutcome
  attempts : Nat
  messages : List Llm.Message
  nextCall : Nat
  deriving DecidableEq, Repr

/-- The attempt loop of `createSketch` (`part_000`, lines 58-93).  `remaining` is the
number of retries still allowed (`maxRetries - attempt` in the source, so the guard
`attempt < maxRetries` becomes `remaining > 0`); `C` is the continuation budget. -/
def createSketchLoop (gw : Nat → Except String Llm.Response)
    (validate : Option (String → Bool × List String)) (C : Nat) :
    Nat → List Llm.Message → Nat → RunResult
  | remaining, messages, k =>
    match (completeWithContinuation gw C k).result with
    | .error e => ⟨.gwError e, 1, messages, (completeWithContinuation gw C k).nextCall⟩
    | .ok (content, resp) =>
      match parseResponse content with
      | .error e =>
        match remaining with
        | r + 1 =>
          let messages2 := appendRetry messages content (parseRetryMsg e)
          let res := createSketchLoop gw validate C r messages2
            (completeWithContinuation gw C k).nextCall
          ⟨res.outcome, res.attempts + 1, res.messages, res.nextCall⟩
        | 0 => ⟨.parseExhausted e, 1, messages, (completeWithContinuation gw C k).nextCall⟩
      | .ok result =>
        match validate with
        | none => ⟨.success result resp, 1, messages, (completeWithContinuation gw C k).nextCall⟩
        | some v =>
          match v result.code with
          | (true, _) =>
            ⟨.success result resp, 1, messages, (completeWithContinuation gw C k).nextCall⟩
          | (false, errs) =>
            match remaining with
            | r + 1 =>
              let messages2 := appendRetry messages content (compileRetryMsg errs)
              let res := createSketchLoop gw validate C r messages2
                (completeWithContinuation gw C k).nextCall
              ⟨res.outcome, res.attempts + 1, res.messages, res.nextCall⟩
            | 0 => ⟨.validateExhausted errs, 1, messages, (completeWithContinuation gw C k).nextCall⟩

/-- Model of `createSketch` with retry budget `R` and continuation budget `C` (the source fixes
`R = maxRetries = 2`, `C = maxContinuations = 3`): start from the single user message
holding the description, at gateway call index 0. -/
def createSketch (gw : Nat → Except String Llm.Response)
    (validate : Option (String → Bool × List String)) (R C : Nat)
    (description : String) : RunResult :=
  createSketchLoop gw validate C R [⟨"user", description⟩] 0

/-- The part of one attempt that runs after `completeWithContinuation` has produced the
assembled `content`: parse it, then validate, retrying or stopping as in the source.  This
names the suffix of `createSketchLoop`'s body so theorems can say "the run proceeds to the
parser on this text". -/
def handleParsed (gw : Nat → Except String Llm.Response)
    (validate : Option (String → Bool × List String)) (C : Nat)
    (remaining : Nat) (messages : List Llm.Message) (content : String)
    (resp : Llm.Response) (k' : Nat) : RunResult :=
  match parseResponse content with
  | .error e =>
    match remaining with
    | r + 1 =>
      let messages2 := appendRetry messages content (parseRetryMsg e)
      let res := createSketchLoop gw validate C r messages2 k'
      ⟨res.outcome, res.attempts + 1, res.messages, res.nextCall⟩
    | 0 => ⟨.parseExhausted e, 1, messages, k'⟩
  | .ok result =>
    match validate with
    | none => ⟨.success result resp, 1, messages, k'⟩
    | some v =>
      match v result.code with
      | (true, _) => ⟨.success result resp, 1, messages, k'⟩
      | (false, errs) =>
        match remaining with
        | r + 1 =>
          let messages2 := appendRetry messages content (compileRetryMsg errs)
          let res := createSketchLoop gw validate C r messages2 k'
          ⟨res.outcome, res.attempts + 1, res.messages, res.nextCall⟩
        | 0 => ⟨.validateExhausted errs, 1, messages, k'⟩

end Artist

/-! ### The minimal CLI generator (`artist.go` at the repo root) -/

namespace Cli

/-- Model of `SketchResult` of the CLI generator (`globals.go`): no metadata map. -/
structure SketchResult where
  code : String
  title : String
  summary : String
  deriving DecidableEq, Repr

/-- Model of `parseResponse` of the root `artist.go`: same `extractCode`/`extractTag` helpers as
`part_000` (the source duplicates them verbatim), but no comment-tag fallback for the
title and no metadata. -/
def parseResponse (content : String) : Except String SketchResult :=
  let code := Artist.extractCode content
  if code = "" then .error "no <code> block found"
  else
    let title := Artist.extractTag content "title"
    if title = "" then .error "no <title> found"
    else .ok { code := code, title := title, summary := Artist.extractTag content "summary" }

end Cli

/-! ### The planning artist (`entities/artist/artist.go`) -/

namespace Ent

/-- Model of `artist.SectionPlan`. -/
structure SectionPlan where
  title : String
  description : String
  neighbors : List String
  deriving DecidableEq, Repr

/-- Model of `artist.SketchPlan`. -/
structure SketchPlan where
  title : String
  summary : String
  subject : String
  perspective : String
  style : String
  metadata : List (String × String)
  sections : List SectionPlan
  contourCode : String
  deriving DecidableEq, Repr

/-- Model of `extractTag` of `entities/artist`: `(?s)<tag>(.*?)</tag>` — case-sensitive, unlike the
`part_000` variant. -/
def extractTag (content tag : String) : String :=
  match extractTagRaw false content.data ("<" ++ tag ++ ">").data ("</" ++ tag ++ ">").data with
  | some cap => strTrim ⟨cap⟩
  | none => ""

/-- Model of `extractSketchCode`: `<contours>` first, then `<code>`, then the fenced-block
fallback; each tag attempt falls through when it yields the empty string. -/
def extractSketchCode (content : String) : String :=
  let c := extractTag content "contours"
  if c ≠ "" then c
  else
    let c2 := extractTag content "code"
    if c2 ≠ "" then c2
    else
      match fencedBlock content.data with
      | some cap => strTrim ⟨cap⟩
      | none => ""

/-- The neighbour sentence inserted into the expansion prompt when the section declares
neighbours. -/
def neighborContext (sec : SectionPlan) : String :=
  if sec.neighbors.isEmpty then ""
  else
    "\nThis section connects to: " ++ strJoin ", " sec.neighbors ++
      ". Ensure your strokes align at boundaries."

/-- Model of `buildExpandSystemPrompt`: the fixed system prompt around the language spec. -/
def expandSystemPrompt (lang : String) : String :=
  "You are a detail-focused artist adding depth to sketch sections using SketchLang.\n\n" ++
  "Here is the SketchLang specification:\n\n" ++ lang ++ "\n\n" ++
  "Your task is to expand a section with detailed strokes. You should:\n" ++
  "1. Add detail strokes for textures and features\n" ++
  "2. Use dashes for shading and tone\n" ++
  "3. Maintain consistency with the overall style\n" ++
  "4. Ensure strokes align with neighboring sections at boundaries\n\n" ++
  "Provide your SketchLang code inside <code> tags:\n\n" ++
  "<code>\n# Your detailed SketchLang code\n</code>\n\n" ++
  "Important:\n" ++
  "- Do NOT repeat the existing contour code - only write NEW code for this section\n" ++
  "- Use trace for clean lines, draw for hand-drawn feel, scribble for sketchy areas\n" ++
  "- Dashes orient based on nearby strokes (flow field)\n" ++
  "- Use descriptive comments\n" ++
  "- Prefix variable names with section name to avoid conflicts (e.g., arm_base, arm_stroke1)\n\n" ++
  "CRITICAL SketchLang constraints (violations will cause compilation errors):\n" ++
  "- NO dot notation (vec.x, vec.y) - this does NOT exist\n" ++
  "- NO variable reassignment - each variable can only be assigned once\n" ++
  "- NO functions or loops - only let bindings and render commands\n" ++
  "- Variables must be declared with type: let name : type = value\n" ++
  "- Valid types are: number, vec, sketch"

/-- The user prompt of `ExpandSection`.  Note which data it draws on: the plan's header
fields (title, summary, style, perspective), the section's own fields, and the
`existingCode` argument — `Studio.Generate` always passes the original contour code there,
never the accumulated code, and the plan's section list never appears. -/
def expandUserPrompt (plan : SketchPlan) (sec : SectionPlan) (existingCode : String) :
    String :=
  "Expand this section of the sketch with detailed SketchLang code.\n\n" ++
  "SKETCH OVERVIEW:\n" ++
  "Title: " ++ plan.title ++ "\n" ++
  "Summary: " ++ plan.summary ++ "\n" ++
  "Style: " ++ plan.style ++ "\n" ++
  "Perspective: " ++ plan.perspective ++ "\n\n" ++
  "SECTION TO EXPAND:\n" ++
  "Title: " ++ sec.title ++ "\n" ++
  "Description: " ++ sec.description ++ neighborContext sec ++ "\n\n" ++
  "EXISTING CONTOUR CODE (for reference - do NOT repeat this, only add new code):\n" ++
  existingCode ++ "\n\n" ++
  "Write NEW SketchLang code for this section only. Add strokes for details, shading with dashes, and fine details. Your code will be APPENDED to the existing code, so:\n" ++
  "- Do NOT redeclare existing variables\n" ++
  "- Use unique variable names (prefix with section name, e.g., " ++
  replaceAll (toLowerStr sec.title) " " "_" ++ "_point1)\n" ++
  "- Reference existing variables if needed for alignment"

/-- Model of `Artist.ExpandSection`: ask the model (the `llm` oracle takes the system prompt and
the user prompt) and extract the SketchLang code from its answer; no code found is an
error. -/
def expandSection (llm : String → String → Except String String) (lang : String)
    (plan : SketchPlan) (sec : SectionPlan) (existingCode : String) :
    Except String String :=
  match llm (expandSystemPrompt lang) (expandUserPrompt plan sec existingCode) with
  | .error e => .error ("failed to expand section: " ++ e)
  | .ok content =>
    let code := extractSketchCode content
    if code = "" then .error "no SketchLang code found in response"
    else .ok code

end Ent

/-! ### The compiler wrapper (`tools/compiler`, `part_004`) -/

namespace Comp

/-- Model of `compiler.Options`.  `Position` and `Size` only add command-line arguments for the
external process and never influence the result classification, so they are not modelled
(they are floating-point pairs). -/
structure Options where
  genGCode : Bool
  genSVG : Bool
  subDir : String
  deriving DecidableEq, Repr

/-- Model of `compiler.Result`. -/
structure Result where
  success : Bool
  svgPath : String
  gcodePath : String
  errors : List String
  warnings : List String
  stdout : String
  stderr : String
  deriving DecidableEq, Repr

/-- The stderr classification loop of `CompileWithOptions`: trim each line, skip empty
ones, and route lines containing "warning" (case-insensitively) to warnings and everything
else to errors. -/
def parseStderrLines (stderrText : String) : List String × List String :=
  (splitLines stderrText).foldl
    (fun acc line =>
      let line := strTrim line
      if line = "" then acc
      else if strContains (toLowerStr line) "warning" then (acc.1, acc.2 ++ [line])
      else (acc.1 ++ [line], acc.2))
    ([], [])

/-- Model of `Compiler.CompileWithOptions` after the external process has run.  The process itself
and the filesystem are oracles: `runError` is the error from `cmd.Run()` (if any),
`stderrText`/`stdoutText` its captured output, and `svgExists`/`gcodeExists` whether the
requested output files are present in the work directory afterwards. -/
def compileWithOptions (opts : Options) (workDir outputName : String)
    (runError : Option String) (stderrText stdoutText : String)
    (svgExists gcodeExists : Bool) : Result :=
  let ew := parseStderrLines stderrText
  match runError with
  | some e =>
    { success := false, svgPath := "", gcodePath := "",
      errors := if ew.1.isEmpty then ew.1 ++ [e] else ew.1, warnings := ew.2,
      stdout := stdoutText, stderr := stderrText }
  | none =>
    let svgPath := if svgExists then workDir ++ "/" ++ outputName ++ ".svg" else ""
    let gcodePath := if gcodeExists then workDir ++ "/" ++ outputName ++ ".txt" else ""
    let success := (opts.genSVG && svgPath != "") || (opts.genGCode && gcodePath != "") ||
      (!opts.genSVG && !opts.genGCode && (svgPath != "" || gcodePath != ""))
    { success := success, svgPath := svgPath, gcodePath := gcodePath,
      errors := ew.1, warnings := ew.2, stdout := stdoutText, stderr := stderrText }

end Comp

/-! ### The decomposed studio (`part_001`, second file) -/

namespace Studio

/-- Model of `SketchSummary` as built by `Studio.Generate` from the plan. -/
structure SketchSummary where
  title : String
  summary : String
  subject : String
  perspective : String
  style : String
  metadata : List (String × String)
  deriving DecidableEq, Repr

/-- Model of `SketchSection` with the fields `Studio.Generate` reads and writes. -/
structure SketchSection where
  title : String
  description : String
  neighbors : List String
  content : String
  expanded : Bool
  deriving DecidableEq, Repr

/-- Model of `Sketch` as assembled by the decomposed `Studio.Generate`. -/
structure Sketch where
  summary : SketchSummary
  contours : String
  sections : List SketchSection
  deriving DecidableEq, Repr

/-- Model of `sanitize` of `part_001` (second file): lower-case, spaces to underscores, keep only
`[a-z0-9_-]`, cap at 50 characters. -/
def sanitize (s : String) : String :=
  let lowered := replaceAll (toLowerStr s) " " "_"
  let safe := lowered.data.filter fun c => c.isLower || c.isDigit || c == '_' || c == '-'
  if safe.length > 50 then ⟨safe.take 50⟩ else ⟨safe⟩

/-- The `SketchSection` recorded for a section that was not incorporated (the state set up
before the expansion loop, lines 350-357, which a failed section keeps). -/
def skipped (s : Ent.SectionPlan) : SketchSection :=
  { title := s.title, description := s.description, neighbors := s.neighbors,
    content := "", expanded := false }

/-- Model of `testCode` of the expansion loop: the tentative combined artifact. -/
def candidate (acc : String) (s : Ent.SectionPlan) (frag : String) : String :=
  acc ++ "\n\n# Section: " ++ s.title ++ "\n" ++ frag

/-- One iteration of the section-expansion loop of `Studio.Generate` (lines 366-405):
expand the section against the ORIGINAL contour code, validate the whole candidate
artifact, and commit only on success; any failure leaves the accumulated code untouched
and marks the section as not expanded.  `compile` is the oracle for
`Compiler.CompileWithOptions` at its boundary (code and output name in, result out). -/
def expandStep (llm : String → String → Except String String)
    (compile : String → String → Except String Comp.Result) (lang : String)
    (plan : Ent.SketchPlan) (acc : String) (s : Ent.SectionPlan) :
    String × SketchSection :=
  match Ent.expandSection llm lang plan s plan.contourCode with
  | .error _ => (acc, skipped s)
  | .ok frag =>
    let testCode := candidate acc s frag
    match compile testCode ("expanded_" ++ sanitize s.title) with
    | .error _ => (acc, skipped s)
    | .ok result =>
      if result.success then
        (testCode, { title := s.title, description := s.description,
                     neighbors := s.neighbors, content := frag, expanded := true })
      else (acc, skipped s)

/-- The whole expansion pass, in plan order, returning the final accumulated code and the
per-section report. -/
def expandAll (llm : String → String → Except String String)
    (compile : String → String → Except String Comp.Result) (lang : String)
    (plan : Ent.SketchPlan) : List Ent.SectionPlan → String → String × List SketchSection
  | [], acc => (acc, [])
  | s :: rest, acc =>
    let step := expandStep llm compile lang plan acc s
    let tail := expandAll llm compile lang plan rest step.1
    (tail.1, step.2 :: tail.2)

/-- The initial accumulated code (line 364). -/
def accInit (plan : Ent.SketchPlan) : String :=
  plan.contourCode ++ "\n\n# === EXPANDED DETAILS ===\n"

/-- The summary block of the returned `Sketch` (lines 338-348). -/
def planSummary (plan : Ent.SketchPlan) : SketchSummary :=
  { title := plan.title, summary := plan.summary, subject := plan.subject,
    perspective := plan.perspective, style := plan.style, metadata := plan.metadata }

/-- Terminal failures of the decomposed `Studio.Generate`. -/
inductive GenError where
  | planning (e : String)
  | contourCompile (e : String)
  | contourFailed (errs : List String)
  | finalCompile (e : String)
  deriving DecidableEq, Repr

/-- The decomposed `Studio.Generate` phase sequence (`part_001`, second file): planning,
contour compile (gating), section expansion (never gating), final compile (only its
transport error gates — its success flag is logged but the `Sketch` is returned either
way).  The second component counts how many per-section expansion invocations were made
(the loop calls `ExpandSection` once per section). -/
def generate (planO : Except String Ent.SketchPlan)
    (llm : String → String → Except String String)
    (compile : String → String → Except String Comp.Result) (lang : String) :
    Except GenError Sketch × Nat :=
  match planO with
  | .error e => (.error (.planning e), 0)
  | .ok plan =>
    match compile plan.contourCode "contours" with
    | .error e => (.error (.contourCompile e), 0)
    | .ok contourResult =>
      if contourResult.success then
        let expanded := expandAll llm compile lang plan plan.sections (accInit plan)
        match compile expanded.1 "final" with
        | .error e => (.error (.finalCompile e), plan.sections.length)
        | .ok _finalResult =>
          (.ok { summary := planSummary plan, contours := plan.contourCode,
                 sections := expanded.2 }, plan.sections.length)
      else (.error (.contourFailed contourResult.errors), 0)

end Studio

/-! ### `AnthropicClient.CompleteWithRetry` (`part_005`) -/

namespace Llm

/-- Outcome of `CompleteWithRetry`. -/
inductive RetryOutcome where
  | ok (r : Response)
  | cancelled
  | exhausted (lastErr : String)
  deriving DecidableEq, Repr

/-- The backoff scheduled before retry `i + 1`: `time.Duration(1 << uint(i)) * time.Second`,
in seconds. -/
def backoffSeconds (i : Nat) : Nat := 2 ^ i

/-- The loop of `CompleteWithRetry`.  `complete` is the per-attempt transport oracle
(indexed by the attempt number `i`); `ctxErrAt i` says whether `ctx.Err()` is non-nil when
checked right after attempt `i` fails; `cancelDuringBackoff i` says whether `ctx.Done()`
fires before the backoff timer after attempt `i` — the `select` makes the backoff wait
interruptible, and both observations return the cancellation error with no further
attempt.  Returns the outcome and the number of `Complete` calls made. -/
def retryLoop (complete : Nat → Except String Response)
    (ctxErrAt cancelDuringBackoff : Nat → Bool) :
    Nat → Nat → String → RetryOutcome × Nat
  | 0, i, lastErr => (.exhausted lastErr, i)
  | remaining + 1, i, _lastErr =>
    match complete i with
    | .ok resp => (.ok resp, i + 1)
    | .error e =>
      if ctxErrAt i then (.cancelled, i + 1)
      else if cancelDuringBackoff i then (.cancelled, i + 1)
      else retryLoop complete ctxErrAt cancelDuringBackoff remaining (i + 1) e

/-- Model of `CompleteWithRetry` with `maxRetries` attempts, starting at attempt 0 with no error
recorded yet. -/
def completeWithRetry (complete : Nat → Except String Response)
    (ctxErrAt cancelDuringBackoff : Nat → Bool) (maxRetries : Nat) :
    RetryOutcome × Nat :=
  retryLoop complete ctxErrAt cancelDuringBackoff maxRetries 0 ""

end Llm

/-! ### Shared string lemmas -/

theorem strAppend_assoc (a b c : String) : a ++ b ++ c = a ++ (b ++ c) := by
  apply String.ext
  simp [String.data_append, List.append_assoc]

theorem strAppend_ne_empty_right (a b : String) (hb : b ≠ "") : a ++ b ≠ "" := by
  intro h
  apply hb
  apply String.ext
  have hd : (a ++ b).data = ("" : String).data := by rw [h]
  rw [String.data_append] at hd
  have := List.append_eq_nil.mp hd
  simpa using this.2

/-! ### C1: the attempt loop bound -/

/-- Every `createSketchLoop` run with `remaining` retries left performs at most
`remaining + 1` iterations of the attempt loop, whatever the gateway (and hence however
many continuation sub-requests each attempt issues). -/
theorem createSketchLoop_attempts_le (gw : Nat → Except String Llm.Response)
    (validate : Option (String → Bool × List String)) (C : Nat) :
    ∀ remaining messages k,
      (Artist.createSketchLoop gw validate C remaining messages k).attempts ≤ remaining + 1 := by
  intro remaining
  induction remaining with
  | zero =>
    intro messages k
    rw [Artist.createSketchLoop]
    rcases (Artist.completeWithContinuation gw C k).result with e | ⟨content, resp⟩
    · simp
    · rcases hp : Artist.parseResponse content with e | result <;> simp only [hp]
      · simp
      · rcases validate with _ | v
        · simp
        · rcases hv : v result.code with ⟨ok, errs⟩
          simp only [hv]
          rcases ok <;> simp
  | succ r ih =>
    intro messages k
    rw [Artist.createSketchLoop]
    rcases (Artist.completeWithContinuation gw C k).result with e | ⟨content, resp⟩
    · simp
    · rcases hp : Artist.parseResponse content with e | result <;> simp only [hp]
      · have := ih (Artist.appendRetry messages content (Artist.parseRetryMsg e))
          (Artist.completeWithContinuation gw C k).nextCall
        simpa using Nat.succ_le_succ this
      · rcases validate with _ | v
        · simp
        · rcases hv : v result.code with ⟨ok, errs⟩
          simp only [hv]
          rcases ok
          · have := ih (Artist.appendRetry messages content (Artist.compileRetryMsg errs))
              (Artist.completeWithContinuation gw C k).nextCall
            simpa using Nat.succ_le_succ this
          · simp

/-- Claim C1: for every retry budget `R ≥ 0` (and every continuation budget, gateway
behaviour, description and optional validator), one `createSketch` invocation performs at
most `R + 1` top-level attempt-loop iterations.  The bound holds uniformly in the gateway
oracle, so in particular it holds for gateways that force continuation requests inside
`completeWithContinuation` on every attempt: those requests never count as attempts
against `R`. -/
theorem createSketch_attempts_le_budget (gw : Nat → Except String Llm.Response)
    (validate : Option (String → Bool × List String)) (R C : Nat) (description : String) :
    (Artist.createSketch gw validate R C description).attempts ≤ R + 1 :=
  createSketchLoop_attempts_le gw validate C R [⟨"user", description⟩] 0

/-! ### C3 and C4: the continuation loop -/

/-- The concatenation `body k ++ body (k+1) ++ ... ++ body (k+r-1)`: the bodies of `r` consecutive gateway
responses, concatenated in order. -/
def concatRange (body : Nat → String) : Nat → Nat → String
  | _, 0 => ""
  | k, r + 1 => body k ++ concatRange body (k + 1) r

/-- The response `contLoop` ends holding after `r` all-truncated continuations starting at
call `k`: the initial one when `r = 0`, else the last continuation response. -/
def lastOf (body : Nat → String) (k : Nat) : Nat → Llm.Response → Llm.Response
  | 0, resp => resp
  | r + 1, _ => ⟨body (k + r), "max_tokens"⟩

/-- If every one of the next `r` gateway calls returns a truncated response, the
continuation loop runs all `r` of them, appends every body in order, and still returns
successfully. -/
theorem contLoop_all_truncated (gw : Nat → Except String Llm.Response)
    (body : Nat → String) :
    ∀ r k content resp issued,
      (∀ j, j < r → gw (k + j) = .ok ⟨body (k + j), "max_tokens"⟩) →
      Artist.contLoop gw r k content resp issued =
        ⟨.ok (content ++ concatRange body k r, lastOf body k r resp), k + r, issued + r⟩ := by
  intro r
  induction r with
  | zero =>
    intro k content resp issued _
    simp [Artist.contLoop, concatRange, lastOf]
  | succ rr ih =>
    intro k content resp issued h
    have h0 : gw k = .ok ⟨body k, "max_tokens"⟩ := by simpa using h 0 (Nat.succ_pos rr)
    have h' : ∀ j, j < rr → gw (k + 1 + j) = .ok ⟨body (k + 1 + j), "max_tokens"⟩ := by
      intro j hj
      have := h (j + 1) (by omega)
      have harith : k + (j + 1) = k + 1 + j := by omega
      rwa [harith] at this
    simp only [Artist.contLoop]
    rw [h0]
    have htr : Llm.Response.wasTruncated ⟨body k, "max_tokens"⟩ = true := by
      simp [Llm.Response.wasTruncated]
    simp only [htr, if_true]
    rw [ih (k + 1) (content ++ body k) ⟨body k, "max_tokens"⟩ (issued + 1) h']
    have hcat : content ++ body k ++ concatRange body (k + 1) rr =
        content ++ concatRange body k (rr + 1) := by
      rw [strAppend_assoc]; rfl
    have hlast : lastOf body (k + 1) rr ⟨body k, "max_tokens"⟩ = lastOf body k (rr + 1) resp := by
      cases rr with
      | zero => simp [lastOf]
      | succ s =>
        simp only [lastOf]
        have : k + 1 + s = k + (s + 1) := by omega
        rw [this]
    simp only [hcat, hlast, Artist.CwcResult.mk.injEq]
    refine ⟨trivial, by omega, by omega⟩

/-- Unfolding of one loop iteration: after `completeWithContinuation` has returned, the
run either fails on a transport error or hands the assembled text to `handleParsed`. -/
theorem createSketchLoop_eq_handleParsed (gw : Nat → Except String Llm.Response)
    (validate : Option (String → Bool × List String)) (C remaining : Nat)
    (messages : List Llm.Message) (k : Nat) :
    Artist.createSketchLoop gw validate C remaining messages k =
      match (Artist.completeWithContinuation gw C k).result with
      | .error e =>
        ⟨.gwError e, 1, messages, (Artist.completeWithContinuation gw C k).nextCall⟩
      | .ok (content, resp) =>
        Artist.handleParsed gw validate C remaining messages content resp
          (Artist.completeWithContinuation gw C k).nextCall := by
  rw [Artist.createSketchLoop]
  rcases (Artist.completeWithContinuation gw C k).result with e | ⟨content, resp⟩
  · rfl
  · rfl

/-- Claim C3: if the gateway returns a truncated response on the initial request and on
every one of the `C` allowed continuation requests (all without transport error),
`completeWithContinuation` still returns successfully with the concatenation of all
`C + 1` bodies, having issued exactly `C` continuation requests; and the attempt loop then
hands exactly that assembled text to `handleParsed` — whose first step is
`parseResponse` — instead of failing before parsing is attempted. -/
theorem continuation_budget_exhausted_still_parses
    (gw : Nat → Except String Llm.Response) (body : Nat → String)
    (validate : Option (String → Bool × List String)) (C k : Nat)
    (h : ∀ j, j ≤ C → gw (k + j) = .ok ⟨body (k + j), "max_tokens"⟩) :
    Artist.completeWithContinuation gw C k =
      ⟨.ok (concatRange body k (C + 1), ⟨body (k + C), "max_tokens"⟩), k + C + 1, C⟩ ∧
    ∀ remaining messages,
      Artist.createSketchLoop gw validate C remaining messages k =
        Artist.handleParsed gw validate C remaining messages
          (concatRange body k (C + 1)) ⟨body (k + C), "max_tokens"⟩ (k + C + 1) := by
  have h0 : gw k = .ok ⟨body k, "max_tokens"⟩ := by simpa using h 0 (Nat.zero_le C)
  have h' : ∀ j, j < C → gw (k + 1 + j) = .ok ⟨body (k + 1 + j), "max_tokens"⟩ := by
    intro j hj
    have := h (j + 1) (by omega)
    have harith : k + (j + 1) = k + 1 + j := by omega
    rwa [harith] at this
  have hcwc : Artist.completeWithContinuation gw C k =
      ⟨.ok (concatRange body k (C + 1), ⟨body (k + C), "max_tokens"⟩), k + C + 1, C⟩ := by
    rw [Artist.completeWithContinuation, h0]
    have htr : Llm.Response.wasTruncated ⟨body k, "max_tokens"⟩ = true := by
      simp [Llm.Response.wasTruncated]
    simp only [htr, if_true]
    rw [contLoop_all_truncated gw body C (k + 1) (body k) ⟨body k, "max_tokens"⟩ 0 h']
    have hcat : body k ++ concatRange body (k + 1) C = concatRange body k (C + 1) := rfl
    have hlast : lastOf body (k + 1) C ⟨body k, "max_tokens"⟩ =
        (⟨body (k + C), "max_tokens"⟩ : Llm.Response) := by
      cases C with
      | zero => simp [lastOf]
      | succ s =>
        simp only [lastOf]
        have : k + 1 + s = k + (s + 1) := by omega
        rw [this]
    simp only [hcat, hlast, Artist.CwcResult.mk.injEq]
    refine ⟨trivial, by omega, by omega⟩
  refine ⟨hcwc, ?_⟩
  intro remaining messages
  rw [createSketchLoop_eq_handleParsed, hcwc]

/-- A gateway that always answers with the same truncated response. -/
def gwAllTruncated : Nat → Except String Llm.Response :=
  fun _ => .ok ⟨"x", "max_tokens"⟩

/-- Witness for C3: with continuation budget 2 and a gateway that stays truncated on the
initial request and both continuations, the call still succeeds with the three bodies
concatenated, and the attempt loop hands that text to the parser stage. -/
theorem continuation_budget_exhausted_still_parses_witness :
    Artist.completeWithContinuation gwAllTruncated 2 0 =
      ⟨.ok ("xxx", ⟨"x", "max_tokens"⟩), 3, 2⟩ ∧
    Artist.createSketchLoop gwAllTruncated none 2 0 [] 0 =
      Artist.handleParsed gwAllTruncated none 2 0 [] "xxx" ⟨"x", "max_tokens"⟩ 3 := by
  obtain ⟨h1, h2⟩ := continuation_budget_exhausted_still_parses gwAllTruncated
    (fun _ => "x") none 2 0 (fun j _ => rfl)
  have hxs : concatRange (fun _ => "x") 0 3 = "xxx" := by decide
  constructor
  · exact h1.trans (by rw [hxs])
  · have h3 := h2 0 []
    rwa [hxs] at h3

/-- Claim C4: if the gateway answers truncated on the initial request and on the first
continuation, and un-truncated on the second continuation, then with continuation budget 3
`completeWithContinuation` issues exactly 2 continuation requests and returns the three
response bodies concatenated in order. -/
theorem continuation_scenario_c (gw : Nat → Except String Llm.Response) (k : Nat)
    (a b : String) (r3 : Llm.Response)
    (h0 : gw k = .ok ⟨a, "max_tokens"⟩) (h1 : gw (k + 1) = .ok ⟨b, "max_tokens"⟩)
    (h2 : gw (k + 2) = .ok r3) (h3 : r3.wasTruncated = false) :
    Artist.completeWithContinuation gw 3 k =
      ⟨.ok (a ++ b ++ r3.content, r3), k + 3, 2⟩ := by
  rw [Artist.completeWithContinuation, h0]
  have htrA : Llm.Response.wasTruncated ⟨a, "max_tokens"⟩ = true := by
    simp [Llm.Response.wasTruncated]
  simp only [htrA, if_true]
  simp only [Artist.contLoop]
  rw [h1]
  have htrB : Llm.Response.wasTruncated ⟨b, "max_tokens"⟩ = true := by
    simp [Llm.Response.wasTruncated]
  simp only [htrB, if_true]
  rw [h2]
  simp [h3]

/-- The Scenario C gateway: truncated twice, then complete. -/
def gwScenarioC : Nat → Except String Llm.Response := fun n =>
  if n = 0 then .ok ⟨"a", "max_tokens"⟩
  else if n = 1 then .ok ⟨"b", "max_tokens"⟩
  else .ok ⟨"c", "end_turn"⟩

/-- Witness for C4 at a concrete gateway: exactly 2 continuation requests, content "abc". -/
theorem continuation_scenario_c_witness :
    Artist.completeWithContinuation gwScenarioC 3 0 =
      ⟨.ok ("abc", ⟨"c", "end_turn"⟩), 3, 2⟩ := by
  have h := continuation_scenario_c gwScenarioC 0 "a" "b" ⟨"c", "end_turn"⟩
    rfl rfl rfl (by decide)
  exact h.trans (by decide)

/-! ### C2: the interpreter never returns an empty code or title as success -/

/-- Claim C2: both response interpreters (`parseResponse` of `part_000` and of the root
`artist.go`) either report failure or return a result whose code and title fields are both
non-empty; a result with empty code or empty title is never returned as success. -/
theorem parseResponse_success_nonempty :
    (∀ content res, Artist.parseResponse content = .ok res →
      res.code ≠ "" ∧ res.title ≠ "") ∧
    (∀ content res, Cli.parseResponse content = .ok res →
      res.code ≠ "" ∧ res.title ≠ "") := by
  constructor
  · intro content res h
    simp only [Artist.parseResponse] at h
    split at h
    · cases h
    · split at h
      · cases h
      · rename_i hcode htitle
        cases h
        exact ⟨by simpa using hcode, by simpa using htitle⟩
  · intro content res h
    simp only [Cli.parseResponse] at h
    split at h
    · cases h
    · split at h
      · cases h
      · rename_i hcode htitle
        cases h
        exact ⟨by simpa using hcode, by simpa using htitle⟩

/-- A well-formed model response used to witness the interpreter invariant. -/
def demoResponse : String := "<title>T</title>\n<code>\nc\n</code>"

/-- Witness for C2: on a concrete well-formed response both interpreters succeed, and the
theorem yields the non-emptiness of the returned code and title. -/
theorem parseResponse_success_nonempty_witness :
    Artist.parseResponse demoResponse = .ok ⟨"T", "", [], "c"⟩ ∧
    (("c" : String) ≠ "" ∧ ("T" : String) ≠ "") ∧
    Cli.parseResponse demoResponse = .ok ⟨"c", "T", ""⟩ := by
  have h1 : Artist.parseResponse demoResponse = .ok ⟨"T", "", [], "c"⟩ := by decide
  have h2 : Cli.parseResponse demoResponse = .ok ⟨"c", "T", ""⟩ := by decide
  exact ⟨h1, parseResponse_success_nonempty.1 demoResponse ⟨"T", "", [], "c"⟩ h1, h2⟩

/-! ### C8: corrective messages are specific to the failure kind -/

/-- A response with a code block but no title marker anywhere (first bad attempt). -/
def respNoTitle1 : String := "<code>\nstroke from (0,0) to (1,1)\n</code>"

/-- A second response with a code block but no title marker (second bad attempt). -/
def respNoTitle2 : String := "<code>\nstroke from (2,2) to (3,3)\n</code>"

/-- A well-formed response (third attempt). -/
def respGood : String := "<title>Cat</title>\n<code>\nstroke from (0,0) to (1,1)\n</code>"

/-- The Scenario B gateway: the title marker is missing on attempts 0 and 1, attempt 2 is
valid; no truncation anywhere. -/
def gwScenarioB : Nat → Except String Llm.Response := fun n =>
  if n = 0 then .ok ⟨respNoTitle1, "end_turn"⟩
  else if n = 1 then .ok ⟨respNoTitle2, "end_turn"⟩
  else .ok ⟨respGood, "end_turn"⟩

/-- Number of user messages in a conversation whose content mentions "title". -/
def countTitleRefs (messages : List Llm.Message) : Nat :=
  (messages.filter fun m => m.role == "user" && strContains m.content "title").length

/-- Claim C8: corrective messages are specific to the failure kind.  In Scenario B
(title marker missing on attempts 0 and 1, valid on attempt 2, `R = maxRetries = 2`,
`C = maxContinuations = 3`) the orchestrator succeeds using all 3 attempts and the final
conversation contains exactly the two corrective user messages, both built by
`parseRetryMsg` from the error naming the missing `<title>` tag — exactly 2 user messages
referencing "title".  And on a validation failure the corrective message appended by
`appendRetry` is `compileRetryMsg errs`, which carries the compiler diagnostics verbatim
(joined by newlines) inside it. -/
theorem corrective_messages_scenario_b :
    (Artist.createSketch gwScenarioB none Artist.maxRetries Artist.maxContinuations
        "a simple cat" =
      { outcome := .success ⟨"Cat", "", [], "stroke from (0,0) to (1,1)"⟩
          ⟨respGood, "end_turn"⟩,
        attempts := 3,
        messages := [⟨"user", "a simple cat"⟩,
          ⟨"assistant", respNoTitle1⟩, ⟨"user", Artist.parseRetryMsg "no <title> found"⟩,
          ⟨"assistant", respNoTitle2⟩, ⟨"user", Artist.parseRetryMsg "no <title> found"⟩],
        nextCall := 3 }) ∧
    countTitleRefs (Artist.createSketch gwScenarioB none Artist.maxRetries
        Artist.maxContinuations "a simple cat").messages = 2 ∧
    (∀ errs messages content,
      Artist.appendRetry messages content (Artist.compileRetryMsg errs) =
        messages ++ [⟨"assistant", content⟩, ⟨"user", Artist.compileRetryMsg errs⟩]) ∧
    (∀ errs, ∃ before after,
      Artist.compileRetryMsg errs = before ++ strJoin "\n" errs ++ after) := by
  refine ⟨by decide, by decide, fun errs messages content => rfl, fun errs => ?_⟩
  exact ⟨"Compilation errors:\n", "\n\nPlease fix and provide corrected code.", rfl⟩

/-! ### C9: cancellation stops `CompleteWithRetry` immediately -/

/-- Claim C9: in `CompleteWithRetry`, once cancellation is observed at attempt `i` —
either by the `ctx.Err()` check right after the failed completion call, or by `ctx.Done()`
firing during the exponential backoff wait (the `select` makes the wait interruptible) —
the loop returns the cancellation outcome at once with exactly `i + 1` completion calls
made, so no further retry attempt happens; and the scheduled backoff doubles with each
low-level attempt. -/
theorem retry_cancellation_immediate :
    (∀ (complete : Nat → Except String Llm.Response) ctxErrAt cancelDuringBackoff
        remaining i lastErr e,
      complete i = .error e →
      (ctxErrAt i = true ∨ (ctxErrAt i = false ∧ cancelDuringBackoff i = true)) →
      Llm.retryLoop complete ctxErrAt cancelDuringBackoff (remaining + 1) i lastErr =
        (.cancelled, i + 1)) ∧
    (∀ i, Llm.backoffSeconds (i + 1) = 2 * Llm.backoffSeconds i) := by
  constructor
  · intro complete cE cB remaining i lastErr e hc hcase
    simp only [Llm.retryLoop]
    rw [hc]
    rcases hcase with h1 | ⟨h1, h2⟩
    · simp [h1]
    · simp [h1, h2]
  · intro i
    simp [Llm.backoffSeconds, pow_succ, Nat.mul_comm]

/-- A transport that always fails. -/
def completeBoom : Nat → Except String Llm.Response := fun _ => .error "boom"

/-- Witness for C9: with a failing transport and cancellation observed right after the
first attempt, the loop returns the cancellation outcome after exactly one call. -/
theorem retry_cancellation_immediate_witness :
    Llm.retryLoop completeBoom (fun _ => true) (fun _ => false) 3 0 "" = (.cancelled, 1) ∧
    Llm.backoffSeconds 1 = 2 * Llm.backoffSeconds 0 := by
  refine ⟨?_, retry_cancellation_immediate.2 0⟩
  exact retry_cancellation_immediate.1 completeBoom (fun _ => true) (fun _ => false)
    2 0 "" "boom" rfl (Or.inl rfl)

/-! ### C10: `CompileWithOptions` success/error classification -/

/-- Claim C10: (1) if the external compiler process exits with an error, the result has
`success = false` and a non-empty error list; (2) if the process exits successfully,
`success` is true exactly when at least one requested output file exists — the SVG when
`GenSVG` is set, the G-code file when `GenGCode` is set, or either file when neither flag
is set — so an exit-code-0 run that produced no requested artifact is reported as a
failure; and (3) `success = true` can coexist with a non-empty error list populated from
non-warning stderr lines, as the concrete instance shows. -/
theorem compileWithOptions_success_classification :
    (∀ opts workDir outputName e stderrText stdoutText svgE gcodeE,
      (Comp.compileWithOptions opts workDir outputName (some e) stderrText stdoutText
          svgE gcodeE).success = false ∧
      (Comp.compileWithOptions opts workDir outputName (some e) stderrText stdoutText
          svgE gcodeE).errors ≠ []) ∧
    (∀ opts workDir outputName stderrText stdoutText svgE gcodeE,
      (Comp.compileWithOptions opts workDir outputName none stderrText stdoutText
          svgE gcodeE).success = true ↔
        ((opts.genSVG = true ∧ svgE = true) ∨ (opts.genGCode = true ∧ gcodeE = true) ∨
          (opts.genSVG = false ∧ opts.genGCode = false ∧
            (svgE = true ∨ gcodeE = true)))) ∧
    ((Comp.compileWithOptions ⟨false, true, ""⟩ "out" "name" none "something bad" ""
        true false).success = true ∧
      (Comp.compileWithOptions ⟨false, true, ""⟩ "out" "name" none "something bad" ""
        true false).errors = ["something bad"]) := by
  refine ⟨?_, ?_, by decide, by decide⟩
  · intro opts workDir outputName e stderrText stdoutText svgE gcodeE
    refine ⟨rfl, ?_⟩
    show (if (Comp.parseStderrLines stderrText).1.isEmpty
        then (Comp.parseStderrLines stderrText).1 ++ [e]
        else (Comp.parseStderrLines stderrText).1) ≠ []
    rcases hl : (Comp.parseStderrLines stderrText).1 with _ | ⟨x, xs⟩
    · simp
    · simp
  · intro opts workDir outputName stderrText stdoutText svgE gcodeE
    have hsvg : ((if svgE then workDir ++ "/" ++ outputName ++ ".svg" else "") != "") = svgE := by
      cases svgE
      · simp
      · simp only [if_true, bne_iff_ne, ne_eq]
        simp [strAppend_ne_empty_right (workDir ++ "/" ++ outputName) ".svg" (by decide)]
    have hg : ((if gcodeE then workDir ++ "/" ++ outputName ++ ".txt" else "") != "") = gcodeE := by
      cases gcodeE
      · simp
      · simp only [if_true, bne_iff_ne, ne_eq]
        simp [strAppend_ne_empty_right (workDir ++ "/" ++ outputName) ".txt" (by decide)]
    simp only [Comp.compileWithOptions]
    rw [hsvg, hg]
    simp only [Bool.or_eq_true, Bool.and_eq_true, Bool.not_eq_true']
    tauto

/-! ### The section-expansion pass: shared lemmas -/

theorem strAppend_empty (a : String) : a ++ "" = a := by
  apply String.ext
  simp [String.data_append]

theorem candidate_eq_append (acc : String) (s : Ent.SectionPlan) (frag : String) :
    Studio.candidate acc s frag =
      acc ++ ("\n\n# Section: " ++ s.title ++ "\n" ++ frag) := by
  simp [Studio.candidate, strAppend_assoc]

/-- A failed expansion call skips the section and leaves the accumulated code unchanged. -/
theorem expandStep_skip_of_expand_error (llm : String → String → Except String String)
    (compile : String → String → Except String Comp.Result) (lang : String)
    (plan : Ent.SketchPlan) (acc : String) (s : Ent.SectionPlan) (e : String)
    (h : Ent.expandSection llm lang plan s plan.contourCode = .error e) :
    Studio.expandStep llm compile lang plan acc s = (acc, Studio.skipped s) := by
  simp [Studio.expandStep, h]

/-- A compile transport error on the candidate skips the section likewise. -/
theorem expandStep_skip_of_compile_error (llm : String → String → Except String String)
    (compile : String → String → Except String Comp.Result) (lang : String)
    (plan : Ent.SketchPlan) (acc : String) (s : Ent.SectionPlan) (frag e : String)
    (hf : Ent.expandSection llm lang plan s plan.contourCode = .ok frag)
    (hc : compile (Studio.candidate acc s frag) ("expanded_" ++ Studio.sanitize s.title) =
      .error e) :
    Studio.expandStep llm compile lang plan acc s = (acc, Studio.skipped s) := by
  simp [Studio.expandStep, hf, hc]

/-- A failed whole-candidate validation skips the section likewise. -/
theorem expandStep_skip_of_compile_failure (llm : String → String → Except String String)
    (compile : String → String → Except String Comp.Result) (lang : String)
    (plan : Ent.SketchPlan) (acc : String) (s : Ent.SectionPlan) (frag : String)
    (r : Comp.Result)
    (hf : Ent.expandSection llm lang plan s plan.contourCode = .ok frag)
    (hc : compile (Studio.candidate acc s frag) ("expanded_" ++ Studio.sanitize s.title) =
      .ok r)
    (hr : r.success = false) :
    Studio.expandStep llm compile lang plan acc s = (acc, Studio.skipped s) := by
  simp [Studio.expandStep, hf, hc, hr]

/-- A committing step appends the candidate and marks the section expanded. -/
theorem expandStep_commit (llm : String → String → Except String String)
    (compile : String → String → Except String Comp.Result) (lang : String)
    (plan : Ent.SketchPlan) (acc : String) (s : Ent.SectionPlan) (frag : String)
    (r : Comp.Result)
    (hf : Ent.expandSection llm lang plan s plan.contourCode = .ok frag)
    (hc : compile (Studio.candidate acc s frag) ("expanded_" ++ Studio.sanitize s.title) =
      .ok r)
    (hr : r.success = true) :
    Studio.expandStep llm compile lang plan acc s =
      (Studio.candidate acc s frag,
       ⟨s.title, s.description, s.neighbors, frag, true⟩) := by
  simp [Studio.expandStep, hf, hc, hr]

/-- A step that does not mark its section expanded is exactly a skip. -/
theorem expandStep_skip_of_not_expanded (llm : String → String → Except String String)
    (compile : String → String → Except String Comp.Result) (lang : String)
    (plan : Ent.SketchPlan) (acc : String) (s : Ent.SectionPlan)
    (h : (Studio.expandStep llm compile lang plan acc s).2.expanded = false) :
    Studio.expandStep llm compile lang plan acc s = (acc, Studio.skipped s) := by
  rcases he : Ent.expandSection llm lang plan s plan.contourCode with e | frag
  · exact expandStep_skip_of_expand_error llm compile lang plan acc s e he
  · rcases hc : compile (Studio.candidate acc s frag)
        ("expanded_" ++ Studio.sanitize s.title) with e | r
    · exact expandStep_skip_of_compile_error llm compile lang plan acc s frag e he hc
    · rcases hr : r.success
      · exact expandStep_skip_of_compile_failure llm compile lang plan acc s frag r he hc hr
      · exfalso
        rw [expandStep_commit llm compile lang plan acc s frag r he hc hr] at h
        simp at h

/-- The accumulated code after one step: unchanged, or the committed candidate. -/
theorem expandStep_acc_cases (llm : String → String → Except String String)
    (compile : String → String → Except String Comp.Result) (lang : String)
    (plan : Ent.SketchPlan) (acc : String) (s : Ent.SectionPlan) :
    (Studio.expandStep llm compile lang plan acc s).1 = acc ∨
    ∃ frag, Ent.expandSection llm lang plan s plan.contourCode = .ok frag ∧
      Studio.expandStep llm compile lang plan acc s =
        (acc ++ ("\n\n# Section: " ++ s.title ++ "\n" ++ frag),
         ⟨s.title, s.description, s.neighbors, frag, true⟩) := by
  rcases he : Ent.expandSection llm lang plan s plan.contourCode with e | frag
  · left; rw [expandStep_skip_of_expand_error llm compile lang plan acc s e he]
  · rcases hc : compile (Studio.candidate acc s frag)
        ("expanded_" ++ Studio.sanitize s.title) with e | r
    · left; rw [expandStep_skip_of_compile_error llm compile lang plan acc s frag e he hc]
    · rcases hr : r.success
      · left
        rw [expandStep_skip_of_compile_failure llm compile lang plan acc s frag r he hc hr]
      · right
        refine ⟨frag, rfl, ?_⟩
        rw [expandStep_commit llm compile lang plan acc s frag r he hc hr,
          candidate_eq_append]

/-- The pass reports exactly one entry per section. -/
theorem expandAll_length (llm : String → String → Except String String)
    (compile : String → String → Except String Comp.Result) (lang : String)
    (plan : Ent.SketchPlan) :
    ∀ secs acc, (Studio.expandAll llm compile lang plan secs acc).2.length = secs.length := by
  intro secs
  induction secs with
  | nil => intro acc; simp [Studio.expandAll]
  | cons s rest ih => intro acc; simp [Studio.expandAll, ih]

/-- The accumulated code only grows by appending. -/
theorem expandAll_growth (llm : String → String → Except String String)
    (compile : String → String → Except String Comp.Result) (lang : String)
    (plan : Ent.SketchPlan) :
    ∀ secs acc, ∃ t, (Studio.expandAll llm compile lang plan secs acc).1 = acc ++ t := by
  intro secs
  induction secs with
  | nil =>
    intro acc
    exact ⟨"", by simp [Studio.expandAll, strAppend_empty]⟩
  | cons s rest ih =>
    intro acc
    rcases expandStep_acc_cases llm compile lang plan acc s with h | ⟨frag, _, h⟩
    · obtain ⟨t, ht⟩ := ih (Studio.expandStep llm compile lang plan acc s).1
      refine ⟨t, ?_⟩
      simp only [Studio.expandAll]
      rw [ht, h]
    · obtain ⟨t, ht⟩ := ih (Studio.expandStep llm compile lang plan acc s).1
      refine ⟨("\n\n# Section: " ++ s.title ++ "\n" ++ frag) ++ t, ?_⟩
      simp only [Studio.expandAll]
      rw [ht, h]
      simp [strAppend_assoc]

/-! ### C5: one section's failure is isolated and the artifact grows append-only -/

/-- Claim C5: in the section-expansion pass, (1) a section whose expansion call errors is
marked not expanded and leaves the accumulated code exactly equal to the last committed
value; (2) likewise when the candidate's compile call errors; (3) likewise when the
candidate compiles but validation reports failure; (4) every step either leaves the
accumulated code unchanged or extends it by appending the section's fragment; and (5) the
pass always continues through every section (one report per section) and the accumulated
code produced by the whole pass is the initial value extended by appending only. -/
theorem section_failure_isolated (llm : String → String → Except String String)
    (compile : String → String → Except String Comp.Result) (lang : String)
    (plan : Ent.SketchPlan) :
    (∀ acc s e, Ent.expandSection llm lang plan s plan.contourCode = .error e →
      Studio.expandStep llm compile lang plan acc s = (acc, Studio.skipped s)) ∧
    (∀ acc s frag e, Ent.expandSection llm lang plan s plan.contourCode = .ok frag →
      compile (Studio.candidate acc s frag) ("expanded_" ++ Studio.sanitize s.title) =
        .error e →
      Studio.expandStep llm compile lang plan acc s = (acc, Studio.skipped s)) ∧
    (∀ acc s frag r, Ent.expandSection llm lang plan s plan.contourCode = .ok frag →
      compile (Studio.candidate acc s frag) ("expanded_" ++ Studio.sanitize s.title) =
        .ok r →
      r.success = false →
      Studio.expandStep llm compile lang plan acc s = (acc, Studio.skipped s)) ∧
    (∀ acc s, (Studio.expandStep llm compile lang plan acc s).1 = acc ∨
      ∃ frag, Ent.expandSection llm lang plan s plan.contourCode = .ok frag ∧
        Studio.expandStep llm compile lang plan acc s =
          (acc ++ ("\n\n# Section: " ++ s.title ++ "\n" ++ frag),
           ⟨s.title, s.description, s.neighbors, frag, true⟩)) ∧
    (∀ secs acc, (Studio.expandAll llm compile lang plan secs acc).2.length = secs.length ∧
      ∃ t, (Studio.expandAll llm compile lang plan secs acc).1 = acc ++ t) :=
  ⟨fun acc s e h => expandStep_skip_of_expand_error llm compile lang plan acc s e h,
   fun acc s frag e hf hc =>
     expandStep_skip_of_compile_error llm compile lang plan acc s frag e hf hc,
   fun acc s frag r hf hc hr =>
     expandStep_skip_of_compile_failure llm compile lang plan acc s frag r hf hc hr,
   fun acc s => expandStep_acc_cases llm compile lang plan acc s,
   fun secs acc =>
     ⟨expandAll_length llm compile lang plan secs acc,
      expandAll_growth llm compile lang plan secs acc⟩⟩

/-- Witness fixture: three planned sections. -/
def sAlpha : Ent.SectionPlan := ⟨"Alpha", "left part", []⟩

/-- Witness fixture: the middle section, whose fragment will fail validation. -/
def sBeta : Ent.SectionPlan := ⟨"Beta", "middle part", []⟩

/-- Witness fixture: the last section; its neighbours do not mention Beta. -/
def sGamma : Ent.SectionPlan := ⟨"Gamma", "right part", ["Alpha"]⟩

/-- Witness fixture: a three-section plan. -/
def planW : Ent.SketchPlan :=
  ⟨"Plan", "summary text", "subject", "front", "minimal", [],
   [sAlpha, sBeta, sGamma], "let base : vec = (0,0)"⟩

/-- Witness fixture: the same plan with the Beta section removed. -/
def planWminus : Ent.SketchPlan :=
  ⟨"Plan", "summary text", "subject", "front", "minimal", [],
   [sAlpha, sGamma], "let base : vec = (0,0)"⟩

/-- Witness fixture: a deterministic model that answers a bad fragment for the Beta
section (its prompt names Beta) and a good one otherwise. -/
def llmW : String → String → Except String String := fun _ user =>
  if strContains user "Beta" then .ok "<code>bad_frag</code>"
  else .ok "<code>good_frag</code>"

/-- Witness fixture: a model whose transport always fails. -/
def llmDownW : String → String → Except String String := fun _ _ => .error "down"

/-- Witness fixture: a compiler that rejects any artifact containing the bad fragment. -/
def compileW : String → String → Except String Comp.Result := fun code _ =>
  .ok { success := !(strContains code "bad_frag"), svgPath := "", gcodePath := "",
        errors := [], warnings := [], stdout := "", stderr := "" }

/-- Witness for C5: an erroring expansion and a failed validation each skip the section
and keep the accumulated code, and a two-section pass reports both sections while growing
the code only by appending. -/
theorem section_failure_isolated_witness :
    Studio.expandStep llmDownW compileW "" planW (Studio.accInit planW) sBeta =
      (Studio.accInit planW, Studio.skipped sBeta) ∧
    Studio.expandStep llmW compileW "" planW "acc" sBeta = ("acc", Studio.skipped sBeta) ∧
    ((Studio.expandAll llmW compileW "" planW [sAlpha, sBeta] "acc").2.length = 2 ∧
      ∃ t, (Studio.expandAll llmW compileW "" planW [sAlpha, sBeta] "acc").1 = "acc" ++ t) := by
  obtain ⟨h1, _, h3, _, h5⟩ := section_failure_isolated llmDownW compileW "" planW
  obtain ⟨_, _, h3', _, h5'⟩ := section_failure_isolated llmW compileW "" planW
  refine ⟨h1 (Studio.accInit planW) sBeta "failed to expand section: down" (by decide),
    h3' "acc" sBeta "bad_frag" ⟨false, "", "", [], [], "", ""⟩ (by decide) (by decide) rfl,
    h5' [sAlpha, sBeta] "acc"⟩

/-! ### C6: removing a failed section does not change the rest of the run -/

/-- The pass over `xs ++ ys` is the pass over `xs` followed by the pass over `ys` from the
accumulated code `xs` produced. -/
theorem expandAll_append (llm : String → String → Except String String)
    (compile : String → String → Except String Comp.Result) (lang : String)
    (plan : Ent.SketchPlan) :
    ∀ xs ys acc,
      Studio.expandAll llm compile lang plan (xs ++ ys) acc =
        ((Studio.expandAll llm compile lang plan ys
            (Studio.expandAll llm compile lang plan xs acc).1).1,
         (Studio.expandAll llm compile lang plan xs acc).2 ++
           (Studio.expandAll llm compile lang plan ys
             (Studio.expandAll llm compile lang plan xs acc).1).2) := by
  intro xs
  induction xs with
  | nil => intro ys acc; simp [Studio.expandAll]
  | cons s rest ih =>
    intro ys acc
    simp only [List.cons_append, Studio.expandAll]
    simp [ih]

/-- Model of `expandStep` never looks at the plan's section list: only the header fields and the
contour code reach the prompt and the compile call. -/
theorem expandStep_sections_irrel (llm : String → String → Except String String)
    (compile : String → String → Except String Comp.Result) (lang : String)
    (t su sub pers st : String) (md : List (String × String))
    (secs1 secs2 : List Ent.SectionPlan) (contour : String)
    (acc : String) (s : Ent.SectionPlan) :
    Studio.expandStep llm compile lang ⟨t, su, sub, pers, st, md, secs1, contour⟩ acc s =
      Studio.expandStep llm compile lang ⟨t, su, sub, pers, st, md, secs2, contour⟩ acc s := rfl

/-- Neither does the whole pass. -/
theorem expandAll_sections_irrel (llm : String → String → Except String String)
    (compile : String → String → Except String Comp.Result) (lang : String)
    (t su sub pers st : String) (md : List (String × String))
    (secs1 secs2 : List Ent.SectionPlan) (contour : String) :
    ∀ lst acc,
      Studio.expandAll llm compile lang ⟨t, su, sub, pers, st, md, secs1, contour⟩ lst acc =
        Studio.expandAll llm compile lang ⟨t, su, sub, pers, st, md, secs2, contour⟩ lst acc := by
  intro lst
  induction lst with
  | nil => intro acc; rfl
  | cons s rest ih =>
    intro acc
    simp only [Studio.expandAll]
    rw [ih]
    rfl

/-- Claim C6: take a plan whose sections are `pre ++ s :: post` and suppose section `s`
(at index `|pre|`) fails — its step commits nothing (`expanded = false`), which covers an
erroring expansion call as well as a failed whole-artifact validation.  Then for the same
deterministic expansion and compile oracles, and for every section after it that does not
declare `s` as a neighbour, the final accumulated artifact equals the one produced by the
same pipeline on the plan with `s` removed.  Moreover each section's expansion prompt is
built only from the plan's header fields and the given contour code — never from the
accumulated code — so it is identical under both plans. -/
theorem section_removal_equivalence (llm : String → String → Except String String)
    (compile : String → String → Except String Comp.Result) (lang : String)
    (t su sub pers st : String) (md : List (String × String)) (contour : String)
    (pre post : List Ent.SectionPlan) (s : Ent.SectionPlan) (acc0 : String)
    (hfail : (Studio.expandStep llm compile lang
        ⟨t, su, sub, pers, st, md, pre ++ s :: post, contour⟩
        (Studio.expandAll llm compile lang
          ⟨t, su, sub, pers, st, md, pre ++ s :: post, contour⟩ pre acc0).1 s).2.expanded
        = false)
    (_hnb : ∀ s' ∈ post, s.title ∉ s'.neighbors) :
    (Studio.expandAll llm compile lang ⟨t, su, sub, pers, st, md, pre ++ s :: post, contour⟩
        (pre ++ s :: post) acc0).1 =
      (Studio.expandAll llm compile lang ⟨t, su, sub, pers, st, md, pre ++ post, contour⟩
        (pre ++ post) acc0).1 ∧
    (∀ sec code,
      Ent.expandUserPrompt ⟨t, su, sub, pers, st, md, pre ++ s :: post, contour⟩ sec code =
        Ent.expandUserPrompt ⟨t, su, sub, pers, st, md, pre ++ post, contour⟩ sec code) := by
  refine ⟨?_, fun sec code => rfl⟩
  rw [expandAll_append llm compile lang ⟨t, su, sub, pers, st, md, pre ++ s :: post, contour⟩
    pre (s :: post) acc0]
  rw [expandAll_append llm compile lang ⟨t, su, sub, pers, st, md, pre ++ post, contour⟩
    pre post acc0]
  rw [expandAll_sections_irrel llm compile lang t su sub pers st md (pre ++ post)
    (pre ++ s :: post) contour pre acc0]
  simp only [Studio.expandAll]
  rw [expandStep_skip_of_not_expanded llm compile lang
    ⟨t, su, sub, pers, st, md, pre ++ s :: post, contour⟩ _ s hfail]
  rw [expandAll_sections_irrel llm compile lang t su sub pers st md (pre ++ s :: post)
    (pre ++ post) contour]

set_option maxRecDepth 40000 in
/-- Witness for C6: with the deterministic model and compiler above, the Beta section's
candidate fails validation, and the final accumulated code of the three-section run equals
that of the run on the plan with Beta removed. -/
theorem section_removal_equivalence_witness :
    (Studio.expandAll llmW compileW "" planW planW.sections (Studio.accInit planW)).1 =
      (Studio.expandAll llmW compileW "" planWminus planWminus.sections
        (Studio.accInit planW)).1 := by
  have h := section_removal_equivalence llmW compileW "" "Plan" "summary text" "subject"
    "front" "minimal" [] "let base : vec = (0,0)" [sAlpha] [sGamma] sBeta
    (Studio.accInit planW) (by decide) (by decide)
  exact h.1

/-! ### C7: which phases gate the decomposed run -/

/-- Claim C7: in the `Studio.Generate` sequence, a contour compilation whose result
reports failure makes the whole run return a terminal error with zero section-expansion
invocations; whereas once the contour compiles, the run returns the `Sketch` for every
expansion-oracle behaviour (so no section's failure can fail the run) and for every final
compile result — the final compilation's success flag never gates the outcome. -/
theorem studio_phase_gating (planO : Except String Ent.SketchPlan)
    (llm : String → String → Except String String)
    (compile : String → String → Except String Comp.Result) (lang : String)
    (plan : Ent.SketchPlan) (cres : Comp.Result)
    (hplan : planO = .ok plan)
    (hcontour : compile plan.contourCode "contours" = .ok cres) :
    (cres.success = false →
      Studio.generate planO llm compile lang =
        (.error (.contourFailed cres.errors), 0)) ∧
    (cres.success = true → ∀ fres,
      compile (Studio.expandAll llm compile lang plan plan.sections
        (Studio.accInit plan)).1 "final" = .ok fres →
      Studio.generate planO llm compile lang =
        (.ok { summary := Studio.planSummary plan, contours := plan.contourCode,
               sections := (Studio.expandAll llm compile lang plan plan.sections
                 (Studio.accInit plan)).2 },
         plan.sections.length)) := by
  subst hplan
  constructor
  · intro hf
    simp [Studio.generate, hcontour, hf]
  · intro hs fres hfin
    simp [Studio.generate, hcontour, hs, hfin]

/-- Witness fixture: a compiler whose contour compilation reports failure. -/
def compileFailW : String → String → Except String Comp.Result := fun _ _ =>
  .ok { success := false, svgPath := "", gcodePath := "", errors := ["err1"],
        warnings := [], stdout := "", stderr := "" }

/-- Witness fixture: a compiler that succeeds everywhere except the final compilation,
which reports failure (but no transport error). -/
def compileFinalFailW : String → String → Except String Comp.Result := fun _ name =>
  if name = "final" then
    .ok { success := false, svgPath := "", gcodePath := "", errors := ["bad"],
          warnings := [], stdout := "", stderr := "" }
  else
    .ok { success := true, svgPath := "", gcodePath := "", errors := [],
          warnings := [], stdout := "", stderr := "" }

set_option maxRecDepth 40000 in
/-- Witness for C7: a failing contour compile aborts the run with no expansion calls;
and with the contour compiling, every section's expansion erroring, and the final compile
reporting failure, the run still returns the `Sketch` (all sections skipped). -/
theorem studio_phase_gating_witness :
    Studio.generate (.ok planW) llmW compileFailW "" =
      (.error (.contourFailed ["err1"]), 0) ∧
    Studio.generate (.ok planW) llmDownW compileFinalFailW "" =
      (.ok { summary := Studio.planSummary planW, contours := planW.contourCode,
             sections := [Studio.skipped sAlpha, Studio.skipped sBeta,
               Studio.skipped sGamma] },
       3) := by
  constructor
  · exact (studio_phase_gating (.ok planW) llmW compileFailW "" planW
      ⟨false, "", "", ["err1"], [], "", ""⟩ rfl rfl).1 rfl
  · have h := (studio_phase_gating (.ok planW) llmDownW compileFinalFailW "" planW
      ⟨true, "", "", [], [], "", ""⟩ rfl (by decide)).2 rfl
      ⟨false, "", "", ["bad"], [], "", ""⟩ (by decide)
    exact h.trans (by decide)
